import Mathlib

/-!
Shallow embedding of the hard core of the `ush` repository: the `term`
package's escape-sequence decoder (`readEvents`) and session teardown
(`Stop`), and the `prompt` package's line-editor state machine
(`Render`, `MaybeUseHistory`, `Edit`, `HistoryPrevious`, `HistoryNext`,
`CompleteSuggest`) together with `History` / `LoadHistory`.

Strings are modelled as lists of runes (`List Char`); the byte stream fed
to the decoder as a list of rune codepoints (`List Nat`).  Every concrete
input considered is ASCII, where Go byte indices coincide with rune
positions, so the models are exact on all inputs used below.
-/

namespace Term

/-- Go `type Key int`, with the constants of the source's table
(`KeyEsc = 27`, `KeyRune Key = iota + 1000`, ...). -/
abbrev Key := Nat

def KeyEsc : Key := 27
def KeyBackspace : Key := 127
def KeyRune : Key := 1000
def KeyUnknown : Key := 1001
def KeyLeft : Key := 1002
def KeyRight : Key := 1003
def KeyUp : Key := 1004
def KeyDown : Key := 1005
def KeyHome : Key := 1006
def KeyEnd : Key := 1007
def KeyInsert : Key := 1008
def KeyDel : Key := 1009
def KeyPageUp : Key := 1010
def KeyPageDown : Key := 1011
def KeyShiftTab : Key := 1027

/-- Go `type EventType int` (`EventKey`, `EventResize`). -/
inductive EventType where
  | key
  | resize
  deriving DecidableEq

/-- Go `Event` struct.  `rune` holds 0 where Go leaves the field at its
zero value. -/
structure Event where
  type : EventType
  key : Key
  rune : Nat
  deriving DecidableEq

/-- Go `&Event{Type: EventKey, Key: k}`. -/
def keyEv (k : Key) : Event := ⟨EventType.key, k, 0⟩

/-- Go `&Event{Type: EventKey, Key: KeyRune, Rune: r}`. -/
def runeEv (r : Nat) : Event := ⟨EventType.key, KeyRune, r⟩

/-- The recognized 2-byte escape suffixes: Go
`switch string(seq[i+1 : i+3])` with cases `[A [B [C [D [H [F [Z OH OF`
(codepoints: `[` = 91, `O` = 79, `A` = 65 ... `Z` = 90, `H` = 72,
`F` = 70). -/
def match2 (a b : Nat) : Key :=
  if a = 91 ∧ b = 65 then KeyUp
  else if a = 91 ∧ b = 66 then KeyDown
  else if a = 91 ∧ b = 67 then KeyRight
  else if a = 91 ∧ b = 68 then KeyLeft
  else if a = 91 ∧ b = 72 then KeyHome
  else if a = 91 ∧ b = 70 then KeyEnd
  else if a = 91 ∧ b = 90 then KeyShiftTab
  else if a = 79 ∧ b = 72 then KeyHome
  else if a = 79 ∧ b = 70 then KeyEnd
  else KeyUnknown

/-- The recognized 3-byte escape suffixes: Go
`switch string(seq[i+1 : i+4])` with cases `[3~ [5~ [6~`
(`3` = 51, `5` = 53, `6` = 54, `~` = 126). -/
def match3 (a b c : Nat) : Key :=
  if a = 91 ∧ b = 51 ∧ c = 126 then KeyDel
  else if a = 91 ∧ b = 53 ∧ c = 126 then KeyPageUp
  else if a = 91 ∧ b = 54 ∧ c = 126 then KeyPageDown
  else KeyUnknown

/-- Go `if len(seq[i+1:]) >= 2 { switch string(seq[i+1:i+3]) ... }`:
the 2-byte lookup guarded by the length test, `KeyUnknown` otherwise. -/
def match2At (rest : List Nat) : Key :=
  if 2 ≤ rest.length then match2 (rest.getD 0 0) (rest.getD 1 0) else KeyUnknown

/-- Go `if len(seq[i+1:]) >= 3 { switch string(seq[i+1:i+4]) ... }`. -/
def match3At (rest : List Nat) : Key :=
  if 3 ≤ rest.length then match3 (rest.getD 0 0) (rest.getD 1 0) (rest.getD 2 0)
  else KeyUnknown

/-- One pass of the decode loop of Go `readEvents` over the sequence
`seq` collected in one 50 ms window, instrumented so that each emitted
event is paired with the source bytes it stands for (the escape byte
plus the matched suffix for a recognized sequence, the single byte
otherwise).  The loop advance mirrors the source exactly: after a
recognized 2-byte suffix the index moves `i = i + 4` (here: drop 3 of
`rest`), after a recognized 3-byte suffix `i = i + 5` (drop 4).  The
fuel argument only bounds the recursion; `fuel = seq.length` is always
enough because every step consumes at least one element. -/
def decodeAux : Nat → List Nat → List (Event × List Nat)
  | 0, _ => []
  | _ + 1, [] => []
  | fuel + 1, r :: rest =>
    if r = 27 then
      if match2At rest ≠ KeyUnknown then
        (keyEv (match2At rest), r :: rest.take 2) :: decodeAux fuel (rest.drop 3)
      else if match3At rest ≠ KeyUnknown then
        (keyEv (match3At rest), r :: rest.take 3) :: decodeAux fuel (rest.drop 4)
      else
        (runeEv 27, [r]) :: decodeAux fuel rest
    else if r < 27 ∨ r = 127 then
      (keyEv r, [r]) :: decodeAux fuel rest
    else
      (runeEv r, [r]) :: decodeAux fuel rest

/-- The decode loop with its source-byte instrumentation. -/
def decodeSeqSrc (seq : List Nat) : List (Event × List Nat) :=
  decodeAux seq.length seq

/-- The events emitted by one pass of the decode loop of `readEvents`. -/
def decodeSeq (seq : List Nat) : List Event :=
  (decodeSeqSrc seq).map Prod.fst

/-- The event the decode loop emits for one byte reached outside any
recognized escape sequence: bytes below 27 or equal to 127 become
control-key events, all others rune events (the escape byte 27 itself
falls in the rune case, via `r = rune(KeyEsc); goto normal`). -/
def byteEv (r : Nat) : Event :=
  if r < 27 ∨ r = 127 then keyEv r else runeEv r

/-- Both suffix lookups fail on `rest` (the condition under which the
decode loop degrades an escape byte to a literal rune event). -/
def headUnrecognized (rest : List Nat) : Bool :=
  decide (match2At rest = KeyUnknown) && decide (match3At rest = KeyUnknown)

/-- No escape byte anywhere in the sequence is followed by a recognized
2- or 3-byte suffix: the decoder's fallback path runs throughout. -/
def escMatchFree : List Nat → Bool
  | [] => true
  | r :: rest =>
    (if r = 27 then headUnrecognized rest else true) && escMatchFree rest

end Term

namespace TermSession

/-- The fields of Go `Terminal` that `Stop` touches.  Channels are
modelled by their open/closed state; `mode` is the device's current
termios attributes, `originalMode` the snapshot captured by `Start`. -/
structure SessionState where
  running : Bool
  runesOpen : Bool
  eventsOpen : Bool
  mode : Nat
  originalMode : Nat
  cursorShown : Bool
  readerNop : Bool
  deriving DecidableEq

/-- Result of a call to Go `Stop`: either the new state, or the Go
runtime fault raised by `close` on an already-closed channel. -/
inductive StopResult where
  | ok : SessionState → StopResult
  | panic : StopResult
  deriving DecidableEq

/-- Go `Stop`: sets `running = false`, closes the `runes` and `events`
channels (close of a closed channel panics), writes the show-cursor
sequence, restores the captured original mode, and resets the input
buffer onto the no-op reader. -/
def Stop (t : SessionState) : StopResult :=
  let t1 : SessionState := { t with running := false }
  if t1.runesOpen = false then StopResult.panic
  else
    let t2 : SessionState := { t1 with runesOpen := false }
    if t2.eventsOpen = false then StopResult.panic
    else
      let t3 : SessionState := { t2 with eventsOpen := false }
      StopResult.ok { t3 with
        cursorShown := true
        mode := t3.originalMode
        readerNop := true }

/-- A concrete session on which `Start` has succeeded: channels
allocated and open, raw mode (here 1) applied over the captured
original mode (here 0). -/
def started0 : SessionState :=
  { running := true, runesOpen := true, eventsOpen := true,
    mode := 1, originalMode := 0, cursorShown := false, readerNop := false }

/-- `started0` after its first `Stop`. -/
def stopped0 : SessionState :=
  { running := false, runesOpen := false, eventsOpen := false,
    mode := 0, originalMode := 0, cursorShown := true, readerNop := true }

end TermSession

namespace PromptEd

/-- A Go string at rune granularity. -/
abbrev Line := List Char

/-- One side-effecting call on the terminal issued while rendering. -/
inductive OutAct where
  | puts : Line → OutAct
  | setCursorColumn : Nat → OutAct
  deriving DecidableEq

/-- Go `promptState` (plus the fields of the owning `Prompt` that the
editor reads: `history`, terminal `width`) and the log `out` of output
calls issued so far. -/
structure PState where
  prompt : Line
  line : Line
  historyIndex : Int
  completionOptions : Option (List Line)
  history : List Line
  width : Nat
  out : List OutAct
  deriving DecidableEq

/-- The line Go `Render` writes after the prompt: the live buffer when
`historyIndex == -1`, otherwise `history[historyIndex]` (the history
snapshot) — what the spec calls the current effective line. -/
def effectiveLine (s : PState) : Line :=
  if s.historyIndex = -1 then s.line else s.history.getD s.historyIndex.toNat []

/-- The output block of one Go `Render` call: column 0, a full-width
blank overwrite, column 0, then prompt plus effective line. -/
def renderBlock (width : Nat) (prompt eff : Line) : List OutAct :=
  [OutAct.setCursorColumn 0, OutAct.puts (List.replicate width ' '),
   OutAct.setCursorColumn 0, OutAct.puts (prompt ++ eff)]

/-- Go `Render`. -/
def Render (s : PState) : PState :=
  { s with out := s.out ++ renderBlock s.width s.prompt (effectiveLine s) }

/-- The output block of Go `RenderCompletionOptions`: a newline, column
0, then each option on its own line. -/
def optionsBlock (opts : List Line) : List OutAct :=
  [OutAct.puts ['\n'], OutAct.setCursorColumn 0] ++
    opts.flatMap (fun o => [OutAct.puts (o ++ ['\n']), OutAct.setCursorColumn 0])

/-- Go `RenderCompletionOptions` (renders the cached option list). -/
def RenderCompletionOptions (s : PState) : PState :=
  { s with out := s.out ++ optionsBlock (s.completionOptions.getD []) }

/-- Go `MaybeUseHistory`: collapse Browsing into Editing by copying the
snapshot into the live buffer. -/
def MaybeUseHistory (s : PState) : PState :=
  if s.historyIndex ≠ -1 then
    { s with line := s.history.getD s.historyIndex.toNat [], historyIndex := -1 }
  else s

/-- Go `Edit`: collapse, invalidate cached completions, apply the
callback to the buffer, re-render. -/
def Edit (cb : Line → Line) (s : PState) : PState :=
  let s1 := MaybeUseHistory s
  let s2 := { s1 with completionOptions := none }
  let s3 := { s2 with line := cb s2.line }
  Render s3

/-- Go `HistoryPrevious` (the Up key). -/
def HistoryPrevious (s : PState) : PState :=
  let s1 :=
    if s.historyIndex = -1 then
      if 0 < s.history.length then
        { s with historyIndex := (s.history.length : Int) - 1 }
      else s
    else if 0 < s.historyIndex then
      { s with historyIndex := s.historyIndex - 1 }
    else s
  Render s1

/-- Go `HistoryNext` (the Down key). -/
def HistoryNext (s : PState) : PState :=
  let s1 :=
    if s.historyIndex = (s.history.length : Int) - 1 ∨ s.historyIndex = -1 then
      { s with historyIndex := -1 }
    else
      { s with historyIndex := s.historyIndex + 1 }
  Render s1

/-- The inner loop of the common-root computation: Go
`for i, c := range option { if i >= len(bestOption) { break };
if c != []rune(bestOption)[i] { bestOption = option[:i]; break } }`.
`suffix` is `option.drop i`; on a mismatch at position `i` the result
is `option[:i]`. -/
def crScan (option best : Line) : List Char → Nat → Line
  | [], _ => best
  | c :: cs, i =>
    if best.length ≤ i then best
    else if c ≠ best.getD i ' ' then option.take i
    else crScan option best cs (i + 1)

/-- Go's common-root fold over the candidate list
(`bestOption := options[0]` then the scan against each later option).
The comment in the source: `[]string{"blue", "black"} => "bl"`. -/
def commonRoot (opts : List Line) : Line :=
  match opts with
  | [] => []
  | best :: rest => rest.foldl (fun b option => crScan option b option 0) best

/-- Modelled from the spec's words, for comparison with `commonRoot`:
the longest common prefix of two lines ... -/
def lcp2 : Line → Line → Line
  | a :: as, b :: bs => if a = b then a :: lcp2 as bs else []
  | _, _ => []

/-- ... and of a whole candidate list (the spec: the longest string all
candidates share as a prefix). -/
def lcpSpec : List Line → Line
  | [] => []
  | x :: xs => xs.foldl lcp2 x

/-- Go `CompleteSuggest`, with the completion callback passed as an
argument (Go reads it from the owning `Prompt`; it never changes during
an invocation).  Mirrors the source order: cached-list redisplay;
provider call on `s.line`; abort on an empty result; `MaybeUseHistory`;
common root; option list display when more than one candidate; cache
drop when the line changed; buffer rewrite; render. -/
def CompleteSuggest (fn : Option (Line → List Line)) (s : PState) : PState :=
  match fn with
  | none => s
  | some f =>
    if s.completionOptions ≠ none then
      Render (RenderCompletionOptions s)
    else
      let opts := f s.line
      let s1 := { s with completionOptions := some opts }
      if opts = [] then
        { s1 with completionOptions := none }
      else
        let s2 := MaybeUseHistory s1
        let best := commonRoot opts
        let s3 := if 1 < opts.length then RenderCompletionOptions s2 else s2
        let s4 := if s3.line ≠ best then { s3 with completionOptions := none } else s3
        Render { s4 with line := best }

/-- Go `strings.Join(p.history, "\n")` — the body of `History()`. -/
def historyJoin (hist : List Line) : Line :=
  List.intercalate ['\n'] hist

/-- The body of Go `LoadHistory`'s loop, one iteration per index
produced by `for r := range history` (over ASCII text these are
0, 1, 2, ...).  Note the source compares the index `r` — not the
character at it — with `'\n'` (= 10), and appends `string(r)`, the
rune whose codepoint is the index, to `buf`. -/
def loadHistoryAux (hist : List Line) (buf : Line) : List Nat → List Line
  | [] => hist
  | r :: rs =>
    let hb := if r = 10 then (hist ++ [buf], ([] : Line)) else (hist, buf)
    loadHistoryAux hb.1 (hb.2 ++ [Char.ofNat r]) rs

/-- Go `LoadHistory` over ASCII text: iterate the byte indices of the
argument, starting from the prompt's current history. -/
def LoadHistory (hist : List Line) (s : Line) : List Line :=
  loadHistoryAux hist [] (List.range s.length)

/-- The editor state at the top of Go `Prompt()`:
`line = ""`, `historyIndex = -1`, `completionOptions = nil`. -/
def initState (prompt : Line) (width : Nat) (hist : List Line) : PState :=
  { prompt := prompt, line := [], historyIndex := -1, completionOptions := none,
    history := hist, width := width, out := [] }

/-- The index invariant of one `Prompt` invocation: `historyIndex` is
-1 or a valid index into the history log. -/
def Inv (s : PState) : Prop :=
  s.historyIndex = -1 ∨ (0 ≤ s.historyIndex ∧ s.historyIndex < (s.history.length : Int))

/-- The candidate of the spec's completion example. -/
def blue : Line := ['b','l','u','e']

/-- The candidate of the spec's completion example. -/
def black : Line := ['b','l','a','c','k']

/-- The single-candidate example of the spec. -/
def blueberry : Line := ['b','l','u','e','b','e','r','r','y']

/-- A fresh editor state with an empty buffer. -/
def s0c4 : PState := initState ['>', ' '] 5 []

/-- A fresh editor state with an empty buffer. -/
def s0c6 : PState := initState [] 4 []

/-- A Browsing state reached by typing `xy` and pressing Up with history
`["abc"]` (the render log is irrelevant to the claims and kept empty):
the live buffer is `xy`, the effective line the snapshot `abc`. -/
def sBrowse : PState :=
  { initState [] 3 [['a','b','c']] with line := ['x','y'], historyIndex := 0 }

/-- The live-state editor over history `["a","b","c"]` of the spec's
history-navigation example. -/
def sabc : PState := initState [] 3 [['a'],['b'],['c']]

end PromptEd

namespace Term

theorem flatten_singletons (l : List Nat) :
    (l.map fun b => ([b] : List Nat)).flatten = l := by
  induction l with
  | nil => rfl
  | cons a l ih => simp [ih]

theorem byteEv_esc : byteEv 27 = runeEv 27 := by decide

/-- On a sequence in which no escape byte is followed by a recognized
suffix, the decode loop emits one event per byte. -/
theorem decodeAux_matchFree (fuel : Nat) :
    ∀ s : List Nat, s.length ≤ fuel → escMatchFree s = true →
      decodeAux fuel s = s.map fun b => (byteEv b, [b]) := by
  induction fuel with
  | zero =>
    intro s hs _
    have : s = [] := List.length_eq_zero.mp (Nat.le_zero.mp hs)
    subst this
    rfl
  | succ n ih =>
    intro s hs hfree
    cases s with
    | nil => rfl
    | cons r rest =>
      simp only [escMatchFree, Bool.and_eq_true] at hfree
      obtain ⟨h1, h2⟩ := hfree
      have hrest : rest.length ≤ n := by
        simp only [List.length_cons] at hs
        omega
      by_cases hr : r = 27
      · subst hr
        rw [if_pos rfl] at h1
        simp only [headUnrecognized, Bool.and_eq_true, decide_eq_true_eq] at h1
        obtain ⟨hm2, hm3⟩ := h1
        simp only [decodeAux, hm2, hm3]
        rw [ih rest hrest h2]
        simp [byteEv_esc]
      · by_cases hcl : r < 27 ∨ r = 127
        · simp only [decodeAux, if_neg hr, if_pos hcl]
          rw [ih rest hrest h2, List.map_cons]
          congr 1
          simp [byteEv, hcl]
        · simp only [decodeAux, if_neg hr, if_neg hcl]
          rw [ih rest hrest h2, List.map_cons]
          congr 1
          simp [byteEv, hcl]

/-- Claim C1 (code bug): the decode loop is claimed to conserve every
input byte, but after a recognized 2-byte suffix it advances the index
by 4 (`i = i + 4`) over a 3-byte sequence, and after a recognized
3-byte suffix by 5 over a 4-byte sequence, silently dropping the next
collected byte when one exists.  At the failing input
`ESC [ A x` the loop emits only the Up key event and the trailing `x`
(120) appears in no event's source bytes; likewise `ESC [ 3 ~ x` emits
only Delete. -/
theorem decode_drops_byte :
    decodeSeq [27, 91, 65, 120] = [keyEv KeyUp] ∧
    ((decodeSeqSrc [27, 91, 65, 120]).map Prod.snd).flatten = [27, 91, 65] ∧
    decodeSeq [27, 91, 51, 126, 120] = [keyEv KeyDel] ∧
    ((decodeSeqSrc [27, 91, 51, 126, 120]).map Prod.snd).flatten = [27, 91, 51, 126] := by
  decide

/-- Claim C2, counterexample: for a bare escape byte the decoder does
not emit an event carrying the `KeyEsc` key code; the single event it
emits is a rune event (`Key = KeyRune`) whose rune is 27, because the
fallback path runs `r = rune(KeyEsc); goto normal` and the control-key
test `r < 27 || r == 127` excludes 27. -/
theorem bare_escape_cex :
    decodeSeq [27] = [runeEv 27] ∧ ∀ e ∈ decodeSeq [27], e.key ≠ KeyEsc := by
  decide

/-- Claim C2 (amended): the sequences `ESC [ A/B/C/D` collected within
one 50 ms window decode to exactly the Up, Down, Right and Left key
events; a bare escape byte with no further bytes in the window yields a
single event for the escape byte, emitted as a rune key event carrying
rune 27, not as a `KeyEsc`-coded key event. -/
theorem arrows_and_bare_escape_decode :
    decodeSeq [27, 91, 65] = [keyEv KeyUp] ∧
    decodeSeq [27, 91, 66] = [keyEv KeyDown] ∧
    decodeSeq [27, 91, 67] = [keyEv KeyRight] ∧
    decodeSeq [27, 91, 68] = [keyEv KeyLeft] ∧
    decodeSeq [27] = [runeEv 27] := by
  decide

/-- Claim C8: when the collected escape sequence's suffix matches no
recognized 2-byte or 3-byte pattern (read as: no escape byte of the
collected sequence is followed by a recognized suffix, so the decoder's
fallback runs throughout), the escape byte is emitted as its own key
event, every remaining collected byte is emitted as an ordinary rune or
control-key event, and the concatenation of all emitted events' source
bytes is the whole input: nothing is dropped and nothing is fatal. -/
theorem decode_unrecognized_degrades (rest : List Nat)
    (h : escMatchFree (27 :: rest) = true) :
    decodeSeq (27 :: rest) = runeEv 27 :: rest.map byteEv ∧
    ((decodeSeqSrc (27 :: rest)).map Prod.snd).flatten = 27 :: rest := by
  have hsrc : decodeSeqSrc (27 :: rest) = (27 :: rest).map fun b => (byteEv b, [b]) :=
    decodeAux_matchFree (27 :: rest).length (27 :: rest) le_rfl h
  constructor
  · simp [decodeSeq, hsrc, Function.comp_def, byteEv_esc]
  · rw [hsrc]
    simp only [List.map_map, Function.comp_def]
    exact flatten_singletons (27 :: rest)

/-- Witness for C8 at the concrete unrecognized sequence `ESC [ Q`. -/
theorem decode_unrecognized_degrades_witness :
    decodeSeq (27 :: [91, 81]) = runeEv 27 :: [91, 81].map byteEv ∧
    ((decodeSeqSrc (27 :: [91, 81])).map Prod.snd).flatten = 27 :: [91, 81] :=
  decode_unrecognized_degrades [91, 81] (by decide)

end Term

namespace TermSession

/-- Claim C9, counterexample: on a session whose `Start` succeeded, the
first `Stop` succeeds, but a second `Stop` panics closing the
already-closed `runes` channel instead of succeeding with the same
state. -/
theorem stop_twice_faults :
    Stop started0 = StopResult.ok stopped0 ∧ Stop stopped0 = StopResult.panic := by
  decide

/-- Claim C9 (amended): on every session whose `Start` succeeded (both
channels open), the first `Stop` succeeds — restoring the originally
captured mode, showing the cursor and swapping in the no-op reader —
and a second `Stop` faults (close of a closed channel) rather than
succeeding; `Stop` is safe to call exactly once per Session. -/
theorem stop_once_then_panic (t : SessionState)
    (h1 : t.runesOpen = true) (h2 : t.eventsOpen = true) :
    Stop t = StopResult.ok
      { t with
          running := false, runesOpen := false, eventsOpen := false,
          cursorShown := true, mode := t.originalMode, readerNop := true } ∧
    Stop { t with
            running := false, runesOpen := false, eventsOpen := false,
            cursorShown := true, mode := t.originalMode, readerNop := true } =
      StopResult.panic := by
  constructor
  · simp [Stop, h1, h2]
  · simp [Stop]

/-- Witness for C9's amended theorem at the concrete started session. -/
theorem stop_once_then_panic_witness :
    Stop started0 = StopResult.ok
      { started0 with
          running := false, runesOpen := false, eventsOpen := false,
          cursorShown := true, mode := started0.originalMode, readerNop := true } ∧
    Stop { started0 with
            running := false, runesOpen := false, eventsOpen := false,
            cursorShown := true, mode := started0.originalMode, readerNop := true } =
      StopResult.panic :=
  stop_once_then_panic started0 rfl rfl

end TermSession

namespace PromptEd

theorem render_line (s : PState) : (Render s).line = s.line := rfl

theorem render_hidx (s : PState) : (Render s).historyIndex = s.historyIndex := rfl

theorem render_opts (s : PState) : (Render s).completionOptions = s.completionOptions := rfl

theorem render_history (s : PState) : (Render s).history = s.history := rfl

theorem maybeUse_hidx (s : PState) : (MaybeUseHistory s).historyIndex = -1 := by
  unfold MaybeUseHistory
  split
  · rfl
  · next h => simpa using h

theorem maybeUse_out (s : PState) : (MaybeUseHistory s).out = s.out := by
  unfold MaybeUseHistory
  split <;> rfl

theorem maybeUse_opts (s : PState) :
    (MaybeUseHistory s).completionOptions = s.completionOptions := by
  unfold MaybeUseHistory
  split <;> rfl

theorem maybeUse_history (s : PState) : (MaybeUseHistory s).history = s.history := by
  unfold MaybeUseHistory
  split <;> rfl

theorem maybeUse_prompt (s : PState) : (MaybeUseHistory s).prompt = s.prompt := by
  unfold MaybeUseHistory
  split <;> rfl

theorem maybeUse_width (s : PState) : (MaybeUseHistory s).width = s.width := by
  unfold MaybeUseHistory
  split <;> rfl

/-- `MaybeUseHistory` commutes with overwriting the completion cache
(it never reads nor writes that field). -/
theorem maybeUse_setOpts (s : PState) (o : Option (List Line)) :
    MaybeUseHistory { s with completionOptions := o } =
      { MaybeUseHistory s with completionOptions := o } := by
  unfold MaybeUseHistory
  by_cases h : s.historyIndex ≠ -1 <;> simp [h]

/-- Normal form of `CompleteSuggest` on the fresh-completion path: no
cached candidates and a non-empty provider result.  The buffer becomes
the common root, the cache survives exactly when the (collapsed) prior
buffer already equals it, the option list is printed exactly when more
than one candidate came back, and one render of the new line follows. -/
theorem completeSuggest_eq (f : Line → List Line) (s : PState)
    (hc : s.completionOptions = none) (hne : f s.line ≠ []) :
    CompleteSuggest (some f) s =
      { MaybeUseHistory s with
          line := commonRoot (f s.line),
          completionOptions :=
            if (MaybeUseHistory s).line = commonRoot (f s.line)
            then some (f s.line) else none,
          out := s.out ++
            (if 1 < (f s.line).length then optionsBlock (f s.line) else []) ++
            renderBlock s.width s.prompt (commonRoot (f s.line)) } := by
  have hmu := maybeUse_setOpts s (some (f s.line))
  by_cases hlen : 1 < (f s.line).length <;>
    by_cases hchg : (MaybeUseHistory s).line = commonRoot (f s.line) <;>
      simp [CompleteSuggest, hc, hne, hmu, hlen, hchg, Render, RenderCompletionOptions,
        effectiveLine, maybeUse_hidx, maybeUse_out, maybeUse_history, maybeUse_prompt,
        maybeUse_width, maybeUse_opts, List.append_assoc]

end PromptEd

namespace PromptEd

/-- Claim C3 (code bug): `LoadHistory` is documented to replace the
current history with the lines of the argument, but its loop ranges
over the string's byte indices (`for r := range history` binds the
index, not the rune), compares the index with `'\n'` (10) and appends
`string(r)` — the rune whose codepoint is the index.  Loading the
two-line text `a\nb` into a fresh prompt therefore yields an empty
history instead of the two lines, and the `LoadHistory`/`History`
round trip mutates any history whose joined text reaches 11 bytes,
appending a garbage entry made of the runes 0..9. -/
theorem loadHistory_contradicts_doc :
    LoadHistory [] ['a', '\n', 'b'] = [] ∧
    historyJoin [['a'], ['b']] = ['a', '\n', 'b'] ∧
    LoadHistory [List.replicate 11 'a'] (historyJoin [List.replicate 11 'a']) =
      [List.replicate 11 'a', (List.range 10).map Char.ofNat] ∧
    historyJoin [List.replicate 11 'a', (List.range 10).map Char.ofNat] ≠
      historyJoin [List.replicate 11 'a'] := by
  decide

/-- Claim C4, counterexample: with candidates `blue` and `black` from a
fresh empty buffer, the resulting buffer `bl` differs from the prior
buffer, yet the candidate list is not cached (the source drops the
cache exactly when the line changed). -/
theorem cache_dropped_on_change_cex :
    (CompleteSuggest (some fun _ => [blue, black]) s0c4).line = ['b', 'l'] ∧
    (CompleteSuggest (some fun _ => [blue, black]) s0c4).line ≠ s0c4.line ∧
    (CompleteSuggest (some fun _ => [blue, black]) s0c4).completionOptions = none := by
  decide

/-- Claim C4 (amended): after a Tab that invokes the provider and
rewrites the buffer, the candidate list is cached if and only if the
resulting buffer EQUALS the buffer prior to the completion (after any
Browsing state is collapsed); a later Tab finding a cache then
redisplays it without recomputing. -/
theorem cache_iff_unchanged (f : Line → List Line) (s : PState)
    (hc : s.completionOptions = none) (hne : f s.line ≠ []) :
    ((CompleteSuggest (some f) s).completionOptions ≠ none ↔
      (CompleteSuggest (some f) s).line = (MaybeUseHistory s).line) ∧
    (∀ t : PState, t.completionOptions ≠ none → ∀ g : Line → List Line,
      CompleteSuggest (some g) t = Render (RenderCompletionOptions t)) := by
  constructor
  · rw [completeSuggest_eq f s hc hne]
    by_cases h : (MaybeUseHistory s).line = commonRoot (f s.line)
    · simp [h]
    · simp [h, Ne.symm h]
  · intro t ht g
    simp [CompleteSuggest, ht]

/-- Witness for C4's amended theorem: candidates `blue`/`black` over a
fresh empty buffer. -/
theorem cache_iff_unchanged_witness :
    ((CompleteSuggest (some fun _ => [blue, black]) s0c4).completionOptions ≠ none ↔
      (CompleteSuggest (some fun _ => [blue, black]) s0c4).line =
        (MaybeUseHistory s0c4).line) ∧
    (∀ t : PState, t.completionOptions ≠ none → ∀ g : Line → List Line,
      CompleteSuggest (some g) t = Render (RenderCompletionOptions t)) :=
  cache_iff_unchanged (fun _ => [blue, black]) s0c4 (by decide) (by decide)

/-- Claim C5, counterexample: in the Browsing state with live buffer
`xy` and effective line (history snapshot) `abc`, Tab hands the
provider the live buffer `xy`, not the effective line: a provider
appending `!` to its argument leaves the buffer `xy!`, not `abc!`. -/
theorem provider_gets_live_line_cex :
    (CompleteSuggest (some fun l => [l ++ ['!']]) sBrowse).line = ['x', 'y', '!'] ∧
    effectiveLine sBrowse = ['a', 'b', 'c'] ∧
    (['x', 'y', '!'] : Line) ≠ ['a', 'b', 'c', '!'] := by
  decide

/-- Claim C5 (amended): on Tab with no cached candidates the provider
is invoked with the LIVE buffer, even while Browsing (the editor
observes the provider only through its value at `s.line`; Browsing is
collapsed only after a non-empty candidate list returns), and a
provider returning zero candidates leaves the editor state exactly
unchanged, with no error. -/
theorem complete_uses_live_line (f1 f2 : Line → List Line) (s : PState)
    (h : f1 s.line = f2 s.line) (hc : s.completionOptions = none) :
    CompleteSuggest (some f1) s = CompleteSuggest (some f2) s ∧
    (∀ g : Line → List Line, g s.line = [] → CompleteSuggest (some g) s = s) := by
  constructor
  · simp only [CompleteSuggest, h]
  · intro g hg
    simp only [CompleteSuggest, hc, hg, ne_eq, not_true_eq_false, if_false,
      ite_true, if_pos rfl]
    rw [← hc]

/-- Witness for C5's amended theorem in the Browsing state `sBrowse`. -/
theorem complete_uses_live_line_witness :
    CompleteSuggest (some fun l => [l]) sBrowse =
      CompleteSuggest (some fun _ => [['x', 'y']]) sBrowse ∧
    (∀ g : Line → List Line, g sBrowse.line = [] →
      CompleteSuggest (some g) sBrowse = sBrowse) :=
  complete_uses_live_line (fun l => [l]) (fun _ => [['x', 'y']]) sBrowse
    (by decide) (by decide)

/-- Claim C6, counterexample: for candidates `ab` and `a`, the longest
common prefix is `a`, but Tab rewrites the buffer to `ab`: the source's
scan never truncates the running best when a later candidate ends while
still matching. -/
theorem common_root_not_lcp_cex :
    (CompleteSuggest (some fun _ => [['a', 'b'], ['a']]) s0c6).line = ['a', 'b'] ∧
    lcpSpec [['a', 'b'], ['a']] = ['a'] ∧
    (['a', 'b'] : Line) ≠ ['a'] := by
  decide

/-- Claim C6 (amended): for every non-empty candidate list, Tab
replaces the live buffer with the source's common-root fold — each
later candidate truncates the running best at the first mismatching
position inside the compared overlap, while a candidate that ends
without mismatch leaves the running best unchanged (so the result can
exceed the longest common prefix).  The option list is printed exactly
when more than one candidate came back; on the spec's examples
`[blue, black]` the buffer becomes `bl` (equal to the true longest
common prefix) with both candidates displayed, and on `[blueberry]`
the buffer becomes `blueberry` with no list displayed. -/
theorem tab_rewrites_common_root (f : Line → List Line) (s : PState)
    (hc : s.completionOptions = none) (hne : f s.line ≠ []) :
    (CompleteSuggest (some f) s).line = commonRoot (f s.line) ∧
    (CompleteSuggest (some f) s).out =
      s.out ++ (if 1 < (f s.line).length then optionsBlock (f s.line) else []) ++
        renderBlock s.width s.prompt (commonRoot (f s.line)) ∧
    commonRoot [blue, black] = ['b', 'l'] ∧
    lcpSpec [blue, black] = ['b', 'l'] ∧
    commonRoot [blueberry] = blueberry := by
  have he := completeSuggest_eq f s hc hne
  exact ⟨by rw [he], by rw [he], by decide, by decide, by decide⟩

/-- Witness for C6's amended theorem: candidates `blue`/`black` over a
fresh empty buffer (two candidates, so the list is displayed). -/
theorem tab_rewrites_common_root_witness :
    (CompleteSuggest (some fun _ => [blue, black]) s0c6).line =
      commonRoot [blue, black] ∧
    (CompleteSuggest (some fun _ => [blue, black]) s0c6).out =
      s0c6.out ++ (if 1 < ([blue, black] : List Line).length
        then optionsBlock [blue, black] else []) ++
        renderBlock s0c6.width s0c6.prompt (commonRoot [blue, black]) ∧
    commonRoot [blue, black] = ['b', 'l'] ∧
    lcpSpec [blue, black] = ['b', 'l'] ∧
    commonRoot [blueberry] = blueberry :=
  tab_rewrites_common_root (fun _ => [blue, black]) s0c6 (by decide) (by decide)

end PromptEd

namespace PromptEd

/-- Claim C7: Up from the live state (-1) over a non-empty history
moves to the last index; Up while browsing above the oldest entry
decrements; Up at index 0 or on empty history leaves the index alone;
Down at the newest index or at -1 goes (back) to -1, and otherwise
increments.  On history `["a","b","c"]` from live state, three Up
presses give indices 2, 1, 0, a fourth Up is a no-op, Down from 0
gives 1, and Down from -1 stays -1. -/
theorem history_navigation (s : PState) :
    (s.historyIndex = -1 → s.history ≠ [] →
      (HistoryPrevious s).historyIndex = (s.history.length : Int) - 1) ∧
    (0 < s.historyIndex →
      (HistoryPrevious s).historyIndex = s.historyIndex - 1) ∧
    (s.historyIndex = 0 → (HistoryPrevious s).historyIndex = 0) ∧
    (s.historyIndex = -1 → s.history = [] →
      (HistoryPrevious s).historyIndex = -1) ∧
    (s.historyIndex = (s.history.length : Int) - 1 ∨ s.historyIndex = -1 →
      (HistoryNext s).historyIndex = -1) ∧
    (s.historyIndex ≠ (s.history.length : Int) - 1 → s.historyIndex ≠ -1 →
      (HistoryNext s).historyIndex = s.historyIndex + 1) ∧
    ((HistoryPrevious sabc).historyIndex = 2 ∧
      (HistoryPrevious (HistoryPrevious sabc)).historyIndex = 1 ∧
      (HistoryPrevious (HistoryPrevious (HistoryPrevious sabc))).historyIndex = 0 ∧
      (HistoryPrevious (HistoryPrevious (HistoryPrevious
        (HistoryPrevious sabc)))).historyIndex = 0 ∧
      (HistoryNext (HistoryPrevious (HistoryPrevious
        (HistoryPrevious sabc)))).historyIndex = 1 ∧
      (HistoryNext sabc).historyIndex = -1) := by
  refine ⟨?_, ?_, ?_, ?_, ?_, ?_, by decide⟩
  · intro h1 h2
    have : 0 < s.history.length := List.length_pos.mpr h2
    simp [HistoryPrevious, Render, h1, this]
  · intro h1
    have hne : s.historyIndex ≠ -1 := by omega
    simp [HistoryPrevious, Render, hne, h1]
  · intro h1
    simp [HistoryPrevious, Render, h1]
  · intro h1 h2
    simp [HistoryPrevious, Render, h1, h2]
  · intro h1
    simp [HistoryNext, Render, h1]
  · intro h1 h2
    simp [HistoryNext, Render, h1, h2]

/-- Witness for C7 at the live state over history `["a","b","c"]`. -/
theorem history_navigation_witness :
    (sabc.historyIndex = -1 → sabc.history ≠ [] →
      (HistoryPrevious sabc).historyIndex = (sabc.history.length : Int) - 1) ∧
    (0 < sabc.historyIndex →
      (HistoryPrevious sabc).historyIndex = sabc.historyIndex - 1) ∧
    (sabc.historyIndex = 0 → (HistoryPrevious sabc).historyIndex = 0) ∧
    (sabc.historyIndex = -1 → sabc.history = [] →
      (HistoryPrevious sabc).historyIndex = -1) ∧
    (sabc.historyIndex = (sabc.history.length : Int) - 1 ∨ sabc.historyIndex = -1 →
      (HistoryNext sabc).historyIndex = -1) ∧
    (sabc.historyIndex ≠ (sabc.history.length : Int) - 1 → sabc.historyIndex ≠ -1 →
      (HistoryNext sabc).historyIndex = sabc.historyIndex + 1) ∧
    ((HistoryPrevious sabc).historyIndex = 2 ∧
      (HistoryPrevious (HistoryPrevious sabc)).historyIndex = 1 ∧
      (HistoryPrevious (HistoryPrevious (HistoryPrevious sabc))).historyIndex = 0 ∧
      (HistoryPrevious (HistoryPrevious (HistoryPrevious
        (HistoryPrevious sabc)))).historyIndex = 0 ∧
      (HistoryNext (HistoryPrevious (HistoryPrevious
        (HistoryPrevious sabc)))).historyIndex = 1 ∧
      (HistoryNext sabc).historyIndex = -1) :=
  history_navigation sabc

/-- Claim C10: the invariant (historyIndex is -1 or a valid history
index) holds initially and is preserved by `HistoryPrevious`,
`HistoryNext`, `MaybeUseHistory` and `Edit`, and under it the
`history[historyIndex]` accesses of `Render` and `MaybeUseHistory`
are in bounds whenever `historyIndex` is not -1. -/
theorem editor_index_invariant (s : PState) (h : Inv s) :
    Inv (HistoryPrevious s) ∧ Inv (HistoryNext s) ∧ Inv (MaybeUseHistory s) ∧
    (∀ cb : Line → Line, Inv (Edit cb s)) ∧
    (s.historyIndex ≠ -1 → (s.history.get? s.historyIndex.toNat).isSome = true) ∧
    (∀ p : Line, ∀ w : Nat, ∀ hist : List Line, Inv (initState p w hist)) := by
  refine ⟨?_, ?_, ?_, ?_, ?_, ?_⟩
  · unfold HistoryPrevious
    simp only [Inv, render_hidx, render_history]
    rcases h with h | h
    · by_cases hl : 0 < s.history.length <;> simp [h, hl] <;> omega
    · have hne : s.historyIndex ≠ -1 := by omega
      by_cases hp : 0 < s.historyIndex <;> simp [hne, hp] <;> omega
  · unfold HistoryNext
    simp only [Inv, render_hidx, render_history]
    by_cases hc : s.historyIndex = (s.history.length : Int) - 1 ∨ s.historyIndex = -1
    · simp [hc]
    · rcases h with h | h
      · exact absurd (Or.inr h) hc
      · push_neg at hc
        simp [hc.1, hc.2]
        omega
  · rw [Inv, maybeUse_hidx]
    left
    rfl
  · intro cb
    rw [Inv]
    left
    simp [Edit, render_hidx, maybeUse_hidx]
  · intro hne
    have hb : s.historyIndex.toNat < s.history.length := by
      rcases h with h | h
      · exact absurd h hne
      · omega
    rw [List.get?_eq_getElem?, List.getElem?_eq_getElem hb]
    rfl
  · intro p w hist
    left
    rfl

/-- Witness for C10 at the live state over history `["a","b","c"]`. -/
theorem editor_index_invariant_witness :
    Inv (HistoryPrevious sabc) ∧ Inv (HistoryNext sabc) ∧
    Inv (MaybeUseHistory sabc) ∧
    (∀ cb : Line → Line, Inv (Edit cb sabc)) ∧
    (sabc.historyIndex ≠ -1 →
      (sabc.history.get? sabc.historyIndex.toNat).isSome = true) ∧
    (∀ p : Line, ∀ w : Nat, ∀ hist : List Line, Inv (initState p w hist)) :=
  editor_index_invariant sabc (Or.inl rfl)

end PromptEd
